import Mathlib

/-!
# Verification of the fhir-collector harvesting pipeline

Shallow embedding of `main.go` of the `fhir-collector` repository: a
resumable day-by-day harvesting loop (`main`, `processDate`), a retrying
fetch primitive with exponential backoff (`fetchDataWithRetry`), a
per-record enrichment pipeline (`processEncounter`, `sendToSQS`), and
quarantine bookkeeping in a key/value store (Redis keys
`last_processed_date`, `unprocessed_dates`, `invalid_encounters`).

Modelling conventions:
* HTTP responses are abstracted at attempt granularity: an oracle
  `Nat → Except GoError Payload` gives the outcome of each attempt of
  `fetchData` (request construction, HTTP call, status check, body read).
* A `Payload` stands for a response byte string, characterized by how each
  of the three `json.Unmarshal` target shapes decodes it (Go decoding of a
  byte string into a fixed struct is deterministic, so a byte string is
  fully described, for this program, by these three outcomes).
* Go errors are modelled by `GoError`: `plain` for `fmt.Errorf` without
  `%w`, `wrap` for `fmt.Errorf` with a `%w` cause.
* Side effects (HTTP attempts, sleeps, Redis writes, SQS sends) are
  recorded in an event trace; Go's `Encounter.Participant` slice keeps the
  nil (absent) vs empty distinction via `Option (List _)`.
* Dates are day numbers (`Nat`); `main` advances by 24h, i.e. one day.
-/

namespace FhirCollector

/-- Go error values: `plain s` is `fmt.Errorf`/`errors.New` without a
wrapped cause, `wrap s e` is `fmt.Errorf("s: %w", e)`. -/
inductive GoError where
  | plain (msg : String)
  | wrap (msg : String) (cause : GoError)
deriving DecidableEq, Repr

/-- The chain of a Go error under repeated `errors.Unwrap`: the error
itself followed by its (transitively) wrapped causes. -/
def GoError.chain : GoError → List GoError
  | .plain s => [.plain s]
  | .wrap s c => .wrap s c :: c.chain

/-- Error `e` carries `c` as an underlying cause iff `c` is a proper member of
`e`'s unwrap chain (i.e. reachable by at least one `errors.Unwrap`). -/
def GoError.carries (e c : GoError) : Prop :=
  c ∈ e.chain ∧ c ≠ e

/-- The `class` sub-object of a FHIR Encounter (main.go `Encounter.Class`). -/
structure EncClass where
  system : String
  code : String
deriving DecidableEq, Repr

/-- The `participant[i].individual` sub-object. -/
structure Individual where
  reference : String
deriving DecidableEq, Repr

/-- One entry of `Encounter.Participant`. -/
structure ParticipantEntry where
  individual : Individual
deriving DecidableEq, Repr

/-- main.go `Encounter.Subject`. -/
structure SubjectRef where
  reference : String
deriving DecidableEq, Repr

/-- main.go `Encounter`. `participant` is `Option (List _)` to keep Go's
distinction between a nil slice (JSON field absent or null — `none`) and a
present but empty array (`some []`); `Period` times are kept abstract as
strings since no claim inspects them. -/
structure Encounter where
  resourceType : String
  id : String
  status : String
  cls : EncClass
  periodStart : String
  periodEnd : String
  participant : Option (List ParticipantEntry)
  subject : SubjectRef
deriving DecidableEq, Repr

/-- main.go `EncounterDB` (with `Period` inlined as two strings). -/
structure EncounterDB where
  fhirId : String
  fullUrl : String
  status : String
  cls : String
  periodStart : String
  periodEnd : String
  practitionerId : String
  patientId : String
deriving DecidableEq, Repr

/-- One entry of the `Name` slice of a Practitioner or Patient. -/
structure HumanName where
  family : String
  given : List String
deriving DecidableEq, Repr

/-- main.go `Practitioner`. -/
structure Practitioner where
  resourceType : String
  id : String
  name : List HumanName
deriving DecidableEq, Repr

/-- main.go `PractitionerDB`. -/
structure PractitionerDB where
  fhirId : String
  givenName : String
  familyName : String
deriving DecidableEq, Repr

/-- main.go `Patient`. -/
structure Patient where
  resourceType : String
  id : String
  name : List HumanName
  birthDate : String
  gender : String
deriving DecidableEq, Repr

/-- main.go `PatientDB`. -/
structure PatientDB where
  fhirId : String
  givenName : String
  familyName : String
  birthDate : String
  gender : String
deriving DecidableEq, Repr

/-- main.go `FHIRMessage`: the enriched composite message sent to SQS. -/
structure FHIRMessage where
  encounter : EncounterDB
  practitioner : PractitionerDB
  patient : PatientDB
deriving DecidableEq, Repr

/-- One entry of a search `Bundle`. -/
structure BundleEntry where
  fullUrl : String
  resource : Encounter
deriving DecidableEq, Repr

/-- main.go `Bundle`. -/
structure Bundle where
  entry : List BundleEntry
deriving DecidableEq, Repr

instance instDecEqExcept {ε α : Type} [DecidableEq ε] [DecidableEq α] :
    DecidableEq (Except ε α)
  | .ok a, .ok b =>
    if h : a = b then .isTrue (by rw [h]) else .isFalse fun hh => h (Except.ok.inj hh)
  | .ok _, .error _ => .isFalse fun hh => Except.noConfusion hh
  | .error _, .ok _ => .isFalse fun hh => Except.noConfusion hh
  | .error a, .error b =>
    if h : a = b then .isTrue (by rw [h]) else .isFalse fun hh => h (Except.error.inj hh)

/-- A response body, characterized by the outcome of `json.Unmarshal`
into each of the three target shapes the program uses. -/
structure Payload where
  bundle : Except GoError Bundle
  practitioner : Except GoError Practitioner
  patient : Except GoError Patient
deriving DecidableEq, Repr

/-- Observable side effects of the pipeline, in program order.
`fetchCall` is one attempt of `fetchData`; `sleep` is the backoff wait in
seconds; `sAddUrl`/`sAddDate` are Redis `SADD`s; `setCursor` is the Redis
`SET last_processed_date`; `publish` is one SQS `SendMessage` call with
its `MessageGroupId`. -/
inductive Event where
  | fetchCall (url : String)
  | sleep (seconds : Nat)
  | sAddUrl (setName : String) (value : String)
  | sAddDate (setName : String) (d : Nat)
  | setCursor (d : Nat)
  | publish (groupKey : String) (msg : FHIRMessage)
deriving DecidableEq, Repr

/-- Outcome of each attempt of `fetchData` for one logical fetch: the
attempt with loop index `i` (0-based, as in the Go `for` loop) either
returns body bytes or an error. -/
def FetchOracle := Nat → Except GoError Payload

/-- The retry loop body of `fetchDataWithRetry` (main.go:343-356),
recursing on the remaining attempt budget. `start` is the Go loop index
`i` of the next attempt: for `i > 0` the loop first sleeps
`2^i` seconds (`time.Second * time.Duration(1<<uint(i))`), then attempts
`fetchData`; a success returns the data at once, a failure is logged and
the loop continues. -/
def fetchAttempts (oracle : FetchOracle) (url : String) :
    Nat → Nat → Except GoError Payload × List Event
  | _, 0 => (.error (.plain "All attempts were failed"), [])
  | start, n + 1 =>
    let pre : List Event := if start > 0 then [.sleep (2 ^ start)] else []
    match oracle start with
    | .ok d => (.ok d, pre ++ [.fetchCall url])
    | .error _ =>
      let rest := fetchAttempts oracle url (start + 1) n
      (rest.1, pre ++ [.fetchCall url] ++ rest.2)

/-- main.go `fetchDataWithRetry`: up to `maxRetries` attempts starting at
loop index 0; after exhausting the budget it returns the fixed error
`fmt.Errorf("All attempts were failed")` (main.go:357). -/
def fetchDataWithRetry (oracle : FetchOracle) (url : String) (maxRetries : Nat) :
    Except GoError Payload × List Event :=
  fetchAttempts oracle url 0 maxRetries

/-- main.go `extractReferenceID`: split on "/" and take the last segment
when there are at least two, otherwise return the input unchanged. -/
def extractReferenceID (ref : String) : String :=
  let parts := ref.splitOn "/"
  if parts.length > 1 then parts.getLastD "" else ref

/-- Environment of one `processEncounter` invocation: the per-attempt
outcomes of the two reference fetches, and the behavior of the AWS/SQS
plumbing used by `sendToSQS` (`none` means success for the two error
slots). `sqsQueueUrl` is the value of the `SQS_QUEUE_URL` environment
variable read at publish time. -/
structure ProcEnv where
  practitionerFetch : FetchOracle
  patientFetch : FetchOracle
  awsConfigErr : Option GoError
  sqsQueueUrl : String
  sqsSendErr : Option GoError

/-- How a `processEncounter` invocation ends: a normal `return`, a Go
runtime panic (index out of range), or process termination via
`log.Fatal`. -/
inductive ProcOutcome where
  | returned
  | panicked
  | fatal
deriving DecidableEq, Repr

/-- Result of `sendToSQS`. -/
inductive SendResult where
  | ok
  | fail (e : GoError)
  | fatalExit
deriving DecidableEq, Repr

/-- main.go `sendToSQS`: loads the AWS config (an error is returned to
the caller); then reads `SQS_QUEUE_URL` and calls `log.Fatal` when it is
empty (main.go:275-278); otherwise marshals the message (marshalling a
`FHIRMessage` cannot fail) and issues one `SendMessage` with the caller's
`clientID` as `MessageGroupId`. The `publish` event records the
`SendMessage` call. -/
def sendToSQS (env : ProcEnv) (message : FHIRMessage) (clientID : String) :
    SendResult × List Event :=
  match env.awsConfigErr with
  | some e => (.fail (.wrap "error loading AWS config" e), [])
  | none =>
    if env.sqsQueueUrl = "" then (.fatalExit, [])
    else
      match env.sqsSendErr with
      | some e => (.fail (.wrap "error sending message to SQS" e), [.publish clientID message])
      | none => (.ok, [.publish clientID message])

/-- Base URL of the upstream FHIR server. -/
def baseFhirUrl : String := "https://hapi.fhir.org/baseR4/"

/-- main.go `processEncounter` (lines 145-253), as a pure function from
its environment to its outcome and event trace:
1. required-field validation (`Status`, `Class.Code`, `Participant != nil`,
   `Subject.Reference`, `fullUrl`): on failure `SADD invalid_encounters
   fullUrl` and return;
2. `enc.Participant[0]` — on a present but empty participant slice this
   indexing panics;
3. empty practitioner reference: log and return (soft skip, no quarantine);
4. fetch + decode + validate practitioner, then patient, each with 3
   attempts; any failure quarantines `fullUrl` and returns;
5. assemble the `FHIRMessage` and hand it to `sendToSQS`; a publish error
   quarantines `fullUrl`; `log.Fatal` inside `sendToSQS` ends the process.
Redis `SADD` results are only logged in the source, so the store is
modelled as accepting every `SADD`. -/
def processEncounter (env : ProcEnv) (enc : Encounter) (fullUrl : String)
    (clientID : String) : ProcOutcome × List Event :=
  if enc.status = "" ∨ enc.cls.code = "" ∨ enc.participant = none ∨
      enc.subject.reference = "" ∨ fullUrl = "" then
    (.returned, [.sAddUrl "invalid_encounters" fullUrl])
  else
    match enc.participant with
    | none => (.panicked, [])
    | some [] => (.panicked, [])
    | some (p0 :: _) =>
      let practitionerRef := p0.individual.reference
      if practitionerRef = "" then (.returned, [])
      else
        let patientRef := enc.subject.reference
        if patientRef = "" then (.returned, [])
        else
          let practitionerId := extractReferenceID practitionerRef
          let patientId := extractReferenceID patientRef
          let encParsed : EncounterDB :=
            { fhirId := enc.id, fullUrl := fullUrl, status := enc.status
              cls := enc.cls.code, periodStart := enc.periodStart
              periodEnd := enc.periodEnd, practitionerId := practitionerId
              patientId := patientId }
          let practitionerURL := baseFhirUrl ++ practitionerRef
          let pfetch := fetchDataWithRetry env.practitionerFetch practitionerURL 3
          match pfetch.1 with
          | .error _ => (.returned, pfetch.2 ++ [.sAddUrl "invalid_encounters" fullUrl])
          | .ok pdata =>
            match pdata.practitioner with
            | .error _ => (.returned, pfetch.2 ++ [.sAddUrl "invalid_encounters" fullUrl])
            | .ok practitioner =>
              match practitioner.name with
              | [] => (.returned, pfetch.2 ++ [.sAddUrl "invalid_encounters" fullUrl])
              | n0 :: _ =>
                match n0.given with
                | [] => (.returned, pfetch.2 ++ [.sAddUrl "invalid_encounters" fullUrl])
                | g0 :: _ =>
                  let practitionerParsed : PractitionerDB :=
                    { fhirId := practitioner.id, givenName := g0, familyName := n0.family }
                  let patientURL := baseFhirUrl ++ patientRef
                  let qfetch := fetchDataWithRetry env.patientFetch patientURL 3
                  match qfetch.1 with
                  | .error _ =>
                    (.returned, pfetch.2 ++ qfetch.2 ++ [.sAddUrl "invalid_encounters" fullUrl])
                  | .ok qdata =>
                    match qdata.patient with
                    | .error _ =>
                      (.returned, pfetch.2 ++ qfetch.2 ++ [.sAddUrl "invalid_encounters" fullUrl])
                    | .ok patient =>
                      match patient.name with
                      | [] =>
                        (.returned, pfetch.2 ++ qfetch.2 ++ [.sAddUrl "invalid_encounters" fullUrl])
                      | m0 :: _ =>
                        match m0.given with
                        | [] =>
                          (.returned,
                            pfetch.2 ++ qfetch.2 ++ [.sAddUrl "invalid_encounters" fullUrl])
                        | h0 :: _ =>
                          let patientParsed : PatientDB :=
                            { fhirId := patient.id, givenName := h0, familyName := m0.family
                              birthDate := patient.birthDate, gender := patient.gender }
                          let message : FHIRMessage :=
                            { encounter := encParsed, practitioner := practitionerParsed
                              patient := patientParsed }
                          let send := sendToSQS env message clientID
                          match send.1 with
                          | .fatalExit => (.fatal, pfetch.2 ++ qfetch.2 ++ send.2)
                          | .fail _ =>
                            (.returned,
                              pfetch.2 ++ qfetch.2 ++ send.2 ++
                                [.sAddUrl "invalid_encounters" fullUrl])
                          | .ok => (.returned, pfetch.2 ++ qfetch.2 ++ send.2)

/-- Environment of one `processDate` invocation: the per-attempt outcomes
of the day's batch fetch, and one `ProcEnv` per entry index of the batch
(index in `bundle.Entry` order). -/
structure DateEnv where
  batchFetch : FetchOracle
  encEnvs : Nat → ProcEnv

/-- The batch search URL for a day
(`https://hapi.fhir.org/baseR4/Encounter?date=%s`); dates are day
numbers, rendered with `toString` in place of the `2006-01-02` format
(an injective rendering is all the model needs). -/
def batchUrl (d : Nat) : String := baseFhirUrl ++ "Encounter?date=" ++ toString d

/-- The fan-out loop of `processDate` (main.go:324-336): entry `i` gets
`clientID = "001"`, overridden to `"002"` when `i % 2 == 1`, and is
handed to `processEncounter` in its own goroutine. The goroutines only
interleave their traces; each entry's own outcome and events are as in
this per-entry list (the trace below concatenates them in entry order,
one of the possible interleavings). -/
def fanOut (encEnvs : Nat → ProcEnv) : Nat → List BundleEntry → List (ProcOutcome × List Event)
  | _, [] => []
  | i, e :: rest =>
    processEncounter (encEnvs i) e.resource e.fullUrl (if i % 2 == 1 then "002" else "001")
      :: fanOut encEnvs (i + 1) rest

/-- Result of `processDate` as seen by `main`'s loop: `ok` (nil error),
`errored` (non-nil error), or `died` — some fan-out goroutine panicked or
called `log.Fatal`, terminating the whole process. -/
inductive DateResult where
  | ok
  | errored (e : GoError)
  | died
deriving DecidableEq, Repr

/-- main.go `processDate` (lines 299-340): fetch the day's batch with 3
attempts; on terminal fetch failure `SADD unprocessed_dates date` and
return an error wrapping the cause; on a decode failure of the fetched
payload return an error (no quarantine); on an empty bundle return nil;
otherwise fan out all entries and wait for them. -/
def processDate (env : DateEnv) (d : Nat) : DateResult × List Event :=
  let bfetch := fetchDataWithRetry env.batchFetch (batchUrl d) 3
  match bfetch.1 with
  | .error e =>
    (.errored (.wrap ("falha ao processar data " ++ toString d) e),
      bfetch.2 ++ [.sAddDate "unprocessed_dates" d])
  | .ok payload =>
    match payload.bundle with
    | .error e => (.errored (.wrap "erro ao parsear JSON de encontros" e), bfetch.2)
    | .ok bundle =>
      if bundle.entry.isEmpty then (.ok, bfetch.2)
      else
        let results := fanOut env.encEnvs 0 bundle.entry
        let evs := (results.map Prod.snd).flatten
        if results.any (fun r => r.1 = .panicked ∨ r.1 = .fatal) then
          (.died, bfetch.2 ++ evs)
        else (.ok, bfetch.2 ++ evs)

/-- The externally persisted state: the `last_processed_date` cursor and
the two quarantine sets (as duplicate-free append lists). -/
structure Store where
  lastProcessedDate : Option Nat
  unprocessedDates : List Nat
  invalidEncounters : List String
deriving DecidableEq, Repr

/-- Apply one traced Redis write to the store (`SADD` is idempotent on a
set; other events touch no store state). -/
def applyEvent (s : Store) : Event → Store
  | .sAddUrl setName v =>
    if setName = "invalid_encounters" then
      if v ∈ s.invalidEncounters then s
      else { s with invalidEncounters := s.invalidEncounters ++ [v] }
    else s
  | .sAddDate setName d =>
    if setName = "unprocessed_dates" then
      if d ∈ s.unprocessedDates then s
      else { s with unprocessedDates := s.unprocessedDates ++ [d] }
    else s
  | _ => s

/-- Fold a trace into the store. -/
def applyEvents (s : Store) (evs : List Event) : Store := evs.foldl applyEvent s

/-- Environment of a whole run: one `DateEnv` per day number, and whether
the Redis `SET last_processed_date` accepts the write issued after each
day (main.go:438 only logs a failed `Set`). -/
structure LoopEnv where
  dateEnvs : Nat → DateEnv
  cursorWriteOk : Nat → Bool

/-- Result of one iteration of `main`'s date loop. -/
inductive IterResult where
  | cont (s : Store) (next : Nat) (evs : List Event)
  | dead (s : Store) (evs : List Event)
deriving DecidableEq, Repr

/-- One iteration of the `for` loop body of `main` (lines 432-443) on a
date that does not exceed `END_DATE`: run `processDate`; on error just
log (no cursor write, no advance); on success issue
`SET last_processed_date` — a failed write is only logged — and advance
the working date by one day. -/
def loopIter (env : LoopEnv) (s : Store) (current : Nat) : IterResult :=
  let pd := processDate (env.dateEnvs current) current
  let s1 := applyEvents s pd.2
  match pd.1 with
  | .died => .dead s1 pd.2
  | .errored _ => .cont s1 current pd.2
  | .ok =>
    let s2 := if env.cursorWriteOk current then { s1 with lastProcessedDate := some current }
              else s1
    .cont s2 (current + 1) (pd.2 ++ [.setCursor current])

/-- The date loop of `main` (lines 426-445), fuelled (the Go loop can run
forever on a permanently failing date): returns the final store and the
list of dates handed to `processDate`, in order. -/
def mainLoop (env : LoopEnv) (endDate : Nat) : Nat → Nat → Store → Store × List Nat
  | 0, _, s => (s, [])
  | fuel + 1, current, s =>
    if current > endDate then (s, [])
    else
      match loopIter env s current with
      | .dead s1 _ => (s1, [current])
      | .cont s1 next _ =>
        match mainLoop env endDate fuel next s1 with
        | (s2, ds) => (s2, current :: ds)

/-- The resume step of `main` (lines 407-424): an absent
`last_processed_date` (Redis nil / empty string) starts from
`START_DATE`; otherwise the working date starts at the persisted cursor
value itself. -/
def resumeDate (s : Store) (startDate : Nat) : Nat :=
  match s.lastProcessedDate with
  | none => startDate
  | some d => d

/-- A whole run of `main`'s harvesting part against a given store state:
resume, then loop until past `END_DATE` (or out of fuel). -/
def runMain (env : LoopEnv) (startDate endDate : Nat) (s : Store) (fuel : Nat) :
    Store × List Nat :=
  mainLoop env endDate fuel (resumeDate s startDate) s

/-- The process environment variables touched by `main`, `initCache` and
`sendToSQS`. -/
structure EnvVars where
  startDate : String
  endDate : String
  valkeyUri : String
  sqsQueueUrl : String
deriving DecidableEq, Repr

/-- Stand-in for `time.Parse("2006-01-02", s)` on day numbers: parses the
`toString` rendering of a day number back, failing on anything else. -/
def parseDate (s : String) : Option Nat := s.toNat?

/-- The startup validation of `main` (lines 390-405): `START_DATE` and
`END_DATE` must be present and parse; any violation is fatal. No other
environment variable is validated at startup. -/
def startupCheck (env : EnvVars) : Except String (Nat × Nat) :=
  if env.startDate = "" ∨ env.endDate = "" then
    .error "START_DATE and END_DATE environment variables are required"
  else
    match parseDate env.startDate with
    | none => .error "Invalid START_DATE format"
    | some a =>
      match parseDate env.endDate with
      | none => .error "Invalid END_DATE format"
      | some b => .ok (a, b)

/-! ## Derived characterizations (proved against the definitions above) -/

/-- The payload of the first successful attempt among
`start, start+1, ...` within a budget of `n` further attempts. -/
def fetchFirstSuccess (oracle : FetchOracle) : Nat → Nat → Option Payload
  | _, 0 => none
  | start, n + 1 =>
    match oracle start with
    | .ok p => some p
    | .error _ => fetchFirstSuccess oracle (start + 1) n

/-- The trace of `m` consecutive attempts starting at loop index `start`:
each attempt with index `i > 0` is preceded by a `sleep (2^i)`. -/
def expectedTraceFrom (url : String) : Nat → Nat → List Event
  | _, 0 => []
  | start, m + 1 =>
    ((if start > 0 then [Event.sleep (2 ^ start)] else []) ++ [Event.fetchCall url]) ++
      expectedTraceFrom url (start + 1) m

/-- What `processEncounter`'s practitioner stage computes, as a function:
`some` of the assembled `PractitionerDB` when some attempt of the fetch
succeeds, the payload decodes as a `Practitioner`, and it has at least one
name entry with at least one given token; `none` otherwise. -/
def practitionerResolution (oracle : FetchOracle) : Option PractitionerDB :=
  match fetchFirstSuccess oracle 0 3 with
  | none => none
  | some pl =>
    match pl.practitioner with
    | .error _ => none
    | .ok pr =>
      match pr.name with
      | [] => none
      | n0 :: _ =>
        match n0.given with
        | [] => none
        | g0 :: _ => some { fhirId := pr.id, givenName := g0, familyName := n0.family }

/-- What `processEncounter`'s patient stage computes, mirroring
`practitionerResolution` with the `Patient` shape. -/
def patientResolution (oracle : FetchOracle) : Option PatientDB :=
  match fetchFirstSuccess oracle 0 3 with
  | none => none
  | some pl =>
    match pl.patient with
    | .error _ => none
    | .ok pt =>
      match pt.name with
      | [] => none
      | m0 :: _ =>
        match m0.given with
        | [] => none
        | h0 :: _ =>
          some { fhirId := pt.id, givenName := h0, familyName := m0.family
                 birthDate := pt.birthDate, gender := pt.gender }

/-- Event classifiers for frame statements. -/
def isUrlAdd : Event → Bool
  | .sAddUrl _ _ => true
  | _ => false

def isDateAdd : Event → Bool
  | .sAddDate _ _ => true
  | _ => false

def isCursorWrite : Event → Bool
  | .setCursor _ => true
  | _ => false

def isPublishEvent : Event → Bool
  | .publish _ _ => true
  | _ => false

def isFetchCall : Event → Bool
  | .fetchCall _ => true
  | _ => false

/-- Number of events of a given class in a trace. -/
def countEvents (p : Event → Bool) (evs : List Event) : Nat := (evs.filter p).length

theorem countEvents_append (p : Event → Bool) (a b : List Event) :
    countEvents p (a ++ b) = countEvents p a + countEvents p b := by
  simp [countEvents, List.filter_append]

theorem countEvents_nil (p : Event → Bool) : countEvents p [] = 0 := rfl

/-- The result component of the retry loop is the first successful
payload, or the fixed terminal error if every attempt in the budget
fails. -/
theorem fetchAttempts_fst (oracle : FetchOracle) (url : String) :
    ∀ n start, (fetchAttempts oracle url start n).1 =
      match fetchFirstSuccess oracle start n with
      | some p => .ok p
      | none => .error (.plain "All attempts were failed") := by
  intro n
  induction n with
  | zero => intro start; rfl
  | succ m ih =>
    intro start
    simp only [fetchAttempts, fetchFirstSuccess]
    cases oracle start with
    | ok p => rfl
    | error e => simpa using ih (start + 1)

/-- When every attempt in the budget fails, the retry loop returns the
fixed terminal error and the full backoff trace of `n` attempts. -/
theorem fetchAttempts_all_fail (oracle : FetchOracle) (url : String) :
    ∀ n start, (∀ j, j < n → ∃ e, oracle (start + j) = .error e) →
      fetchAttempts oracle url start n =
        (.error (.plain "All attempts were failed"), expectedTraceFrom url start n) := by
  intro n
  induction n with
  | zero => intro start _; rfl
  | succ m ih =>
    intro start hfail
    obtain ⟨e, he⟩ := hfail 0 (Nat.succ_pos m)
    simp only [Nat.add_zero] at he
    have hrest : ∀ j, j < m → ∃ e, oracle (start + 1 + j) = .error e := by
      intro j hj
      have := hfail (j + 1) (by omega)
      simpa [Nat.add_assoc, Nat.add_comm 1 j] using this
    simp only [fetchAttempts, expectedTraceFrom, he, ih (start + 1) hrest]

/-- When the attempts with loop indices `start, ..., start+k-1` fail and
attempt `start+k` (still within the budget) succeeds, the retry loop
returns that payload at once, with the backoff trace of `k+1` attempts. -/
theorem fetchAttempts_first_success (oracle : FetchOracle) (url : String) :
    ∀ n start k p, k < n → (∀ j, j < k → ∃ e, oracle (start + j) = .error e) →
      oracle (start + k) = .ok p →
      fetchAttempts oracle url start n = (.ok p, expectedTraceFrom url start (k + 1)) := by
  intro n
  induction n with
  | zero => intro start k p hk; omega
  | succ m ih =>
    intro start k p hk hfail hok
    cases k with
    | zero =>
      simp only [Nat.add_zero] at hok
      simp [fetchAttempts, expectedTraceFrom, hok]
    | succ l =>
      obtain ⟨e, he⟩ := hfail 0 (Nat.succ_pos l)
      simp only [Nat.add_zero] at he
      have hfail' : ∀ j, j < l → ∃ e, oracle (start + 1 + j) = .error e := by
        intro j hj
        have := hfail (j + 1) (by omega)
        simpa [Nat.add_assoc, Nat.add_comm 1 j] using this
      have hok' : oracle (start + 1 + l) = .ok p := by
        have : start + 1 + l = start + (l + 1) := by omega
        rw [this]; exact hok
      have := ih (start + 1) l p (by omega) hfail' hok'
      simp only [fetchAttempts, expectedTraceFrom, he, this]

/-- Every event the retry loop emits is a fetch attempt or a sleep. -/
theorem fetchAttempts_events (oracle : FetchOracle) (url : String) :
    ∀ n start, ∀ e ∈ (fetchAttempts oracle url start n).2,
      e = .fetchCall url ∨ ∃ s, e = .sleep s := by
  intro n
  induction n with
  | zero => intro start e he; simp [fetchAttempts] at he
  | succ m ih =>
    intro start e he
    simp only [fetchAttempts] at he
    cases horacle : oracle start with
    | ok p =>
      rw [horacle] at he
      simp only [List.mem_append, List.mem_singleton] at he
      rcases he with he | he
      · split at he
        · simp only [List.mem_singleton] at he; exact Or.inr ⟨_, he⟩
        · simp at he
      · exact Or.inl he
    | error err =>
      rw [horacle] at he
      simp only [List.mem_append, List.mem_singleton] at he
      rcases he with (he | he) | he
      · split at he
        · simp only [List.mem_singleton] at he; exact Or.inr ⟨_, he⟩
        · simp at he
      · exact Or.inl he
      · exact ih (start + 1) e he

/-- The retry loop makes at most `n` fetch attempts. -/
theorem fetchAttempts_count (oracle : FetchOracle) (url : String) :
    ∀ n start, countEvents isFetchCall (fetchAttempts oracle url start n).2 ≤ n := by
  intro n
  induction n with
  | zero => intro start; simp [fetchAttempts, countEvents]
  | succ m ih =>
    intro start
    have hpre : List.filter isFetchCall (if start > 0 then [Event.sleep (2 ^ start)] else []) = [] := by
      split <;> rfl
    simp only [fetchAttempts]
    cases horacle : oracle start with
    | ok p =>
      simp only [horacle]
      simp only [countEvents, List.filter_append, hpre, List.length_append]
      simp [List.filter, isFetchCall]
    | error err =>
      simp only [horacle]
      have := ih (start + 1)
      simp only [countEvents, List.filter_append, List.length_append, hpre] at *
      simp only [List.filter, isFetchCall]
      simp
      omega

/-- Full characterization of `processEncounter` on a candidate that
passes required-field validation and has a non-empty first participant
reference, in terms of the two resolution functions and `sendToSQS`. -/
theorem processEncounter_post_validation (env : ProcEnv) (enc : Encounter)
    (fullUrl clientID : String) (p0 : ParticipantEntry) (rest : List ParticipantEntry)
    (h1 : ¬ enc.status = "") (h2 : ¬ enc.cls.code = "")
    (h3 : enc.participant = some (p0 :: rest))
    (h4 : ¬ enc.subject.reference = "") (h5 : ¬ fullUrl = "")
    (h6 : ¬ p0.individual.reference = "") :
    processEncounter env enc fullUrl clientID =
      let ptrace := (fetchDataWithRetry env.practitionerFetch
        (baseFhirUrl ++ p0.individual.reference) 3).2
      let qtrace := (fetchDataWithRetry env.patientFetch
        (baseFhirUrl ++ enc.subject.reference) 3).2
      match practitionerResolution env.practitionerFetch with
      | none => (.returned, ptrace ++ [.sAddUrl "invalid_encounters" fullUrl])
      | some prdb =>
        match patientResolution env.patientFetch with
        | none => (.returned, ptrace ++ qtrace ++ [.sAddUrl "invalid_encounters" fullUrl])
        | some padb =>
          let message : FHIRMessage :=
            { encounter :=
                { fhirId := enc.id, fullUrl := fullUrl, status := enc.status
                  cls := enc.cls.code, periodStart := enc.periodStart
                  periodEnd := enc.periodEnd
                  practitionerId := extractReferenceID p0.individual.reference
                  patientId := extractReferenceID enc.subject.reference }
              practitioner := prdb, patient := padb }
          let send := sendToSQS env message clientID
          match send.1 with
          | .fatalExit => (.fatal, ptrace ++ qtrace ++ send.2)
          | .fail _ =>
            (.returned, ptrace ++ qtrace ++ send.2 ++ [.sAddUrl "invalid_encounters" fullUrl])
          | .ok => (.returned, ptrace ++ qtrace ++ send.2) := by
  simp only [processEncounter, h3]
  rw [if_neg (by simp [h1, h2, h4, h5])]
  rw [if_neg h6, if_neg h4]
  simp only [fetchDataWithRetry]
  have hpf := fetchAttempts_fst env.practitionerFetch
    (baseFhirUrl ++ p0.individual.reference) 3 0
  cases hps : fetchFirstSuccess env.practitionerFetch 0 3 with
  | none =>
    rw [hps] at hpf
    dsimp only at hpf
    simp only [practitionerResolution, hps, hpf]
  | some pl =>
    rw [hps] at hpf
    dsimp only at hpf
    simp only [practitionerResolution, hps, hpf]
    cases hpr : pl.practitioner with
    | error e => simp only [hpr]
    | ok pr =>
      simp only [hpr]
      cases hname : pr.name with
      | nil => simp only [hname]
      | cons n0 ns =>
        simp only [hname]
        cases hgiven : n0.given with
        | nil => simp only [hgiven]
        | cons g0 gs =>
          simp only [hgiven]
          have hqf := fetchAttempts_fst env.patientFetch
            (baseFhirUrl ++ enc.subject.reference) 3 0
          cases hqs : fetchFirstSuccess env.patientFetch 0 3 with
          | none =>
            rw [hqs] at hqf
            dsimp only at hqf
            simp only [patientResolution, hqs, hqf]
          | some ql =>
            rw [hqs] at hqf
            dsimp only at hqf
            simp only [patientResolution, hqs, hqf]
            cases hqr : ql.patient with
            | error e => simp only [hqr]
            | ok pt =>
              simp only [hqr]
              cases hmname : pt.name with
              | nil => simp only [hmname]
              | cons m0 ms =>
                simp only [hmname]
                cases hmgiven : m0.given with
                | nil => simp only [hmgiven]
                | cons h0 hs => simp only [hmgiven]

/-- The retry loop emits no store or queue events: filtering its trace by
any classifier that rejects fetch attempts and sleeps gives nothing. -/
theorem fetchAttempts_filter_nil (p : Event → Bool)
    (hp1 : ∀ u, p (.fetchCall u) = false) (hp2 : ∀ s, p (.sleep s) = false)
    (oracle : FetchOracle) (url : String) (n start : Nat) :
    ((fetchAttempts oracle url start n).2).filter p = [] := by
  rw [List.filter_eq_nil_iff]
  intro e he
  rcases fetchAttempts_events oracle url n start e he with h | ⟨s, h⟩ <;> subst h <;>
    simp [hp1, hp2]

/-- The trace of `sendToSQS` is empty or a single `SendMessage` call with
the caller's `clientID`. -/
theorem sendToSQS_events (env : ProcEnv) (msg : FHIRMessage) (clientID : String) :
    (sendToSQS env msg clientID).2 = [] ∨
      (sendToSQS env msg clientID).2 = [.publish clientID msg] := by
  unfold sendToSQS
  cases env.awsConfigErr with
  | some e => exact Or.inl rfl
  | none =>
    by_cases hq : env.sqsQueueUrl = ""
    · rw [if_pos hq]; exact Or.inl rfl
    · rw [if_neg hq]
      cases env.sqsSendErr with
      | some e => exact Or.inr rfl
      | none => exact Or.inr rfl

/-! ## Concrete fixtures used by witnesses and counterexamples -/

/-- A payload none of the three shapes decodes (malformed JSON). -/
def malformedPayload : Payload :=
  { bundle := .error (.plain "invalid character"),
    practitioner := .error (.plain "invalid character"),
    patient := .error (.plain "invalid character") }

/-- A payload decoding to an empty search bundle. -/
def emptyBundlePayload : Payload :=
  { bundle := .ok { entry := [] },
    practitioner := .error (.plain "shape"), patient := .error (.plain "shape") }

/-- A valid practitioner entity (one name entry, one given token). -/
def goodPractitioner : Practitioner :=
  { resourceType := "Practitioner", id := "pr1",
    name := [{ family := "House", given := ["Gregory"] }] }

/-- A payload decoding to a valid practitioner. -/
def goodPractitionerPayload : Payload :=
  { bundle := .error (.plain "shape"),
    practitioner := .ok goodPractitioner,
    patient := .error (.plain "shape") }

/-- A valid patient entity (one name entry, one given token). -/
def goodPatient : Patient :=
  { resourceType := "Patient", id := "pa1",
    name := [{ family := "Adler", given := ["Irene"] }],
    birthDate := "1980-01-01", gender := "female" }

/-- A payload decoding to a valid patient. -/
def goodPatientPayload : Payload :=
  { bundle := .error (.plain "shape"),
    practitioner := .error (.plain "shape"),
    patient := .ok goodPatient }

/-- An environment whose reference fetches always fail and whose AWS/SQS
plumbing is healthy. -/
def failingFetchEnv : ProcEnv :=
  { practitionerFetch := fun _ => .error (.plain "connection refused"),
    patientFetch := fun _ => .error (.plain "connection refused"),
    awsConfigErr := none, sqsQueueUrl := "http://localstack:4566/q.fifo",
    sqsSendErr := none }

/-- An environment whose reference fetches succeed at once with valid
entities and whose AWS/SQS plumbing is healthy. -/
def happyEnv : ProcEnv :=
  { practitionerFetch := fun _ => .ok goodPractitionerPayload,
    patientFetch := fun _ => .ok goodPatientPayload,
    awsConfigErr := none, sqsQueueUrl := "http://localstack:4566/q.fifo",
    sqsSendErr := none }

/-- A well-formed encounter candidate with one participant. -/
def goodEnc : Encounter :=
  { resourceType := "Encounter", id := "e1", status := "finished",
    cls := { system := "http://terminology.hl7.org/CodeSystem/v3-ActCode", code := "AMB" },
    periodStart := "2025-01-01T08:00:00Z", periodEnd := "2025-01-01T09:00:00Z",
    participant := some [{ individual := { reference := "Practitioner/pr1" } }],
    subject := { reference := "Patient/pa1" } }

/-! ## C5 — backoff schedule of the retrying fetch -/

/-- C5: for every URL and attempt budget, the retrying fetch makes at
most `maxAttempts` attempts; if the attempts with loop indices
`0..k-1` fail and attempt `k` succeeds within the budget, it returns the
fetched bytes at once with the trace of `k+1` attempts; if all attempts
fail it makes exactly the budget's worth of attempts. In the trace
(`expectedTraceFrom url 0 _`) the attempt with 0-based loop index `i > 0`
— i.e. 1-indexed attempt `i+1` — is preceded by exactly `sleep (2^i)`
seconds: after failed 1-indexed attempt `i` the fetcher waits `2^i`
seconds (attempt 2 waits 2s, attempt 3 waits 4s for a budget of 3). -/
theorem spec_C5 (oracle : FetchOracle) (url : String) (n : Nat) :
    countEvents isFetchCall (fetchDataWithRetry oracle url n).2 ≤ n ∧
    (∀ k p, k < n → (∀ j, j < k → ∃ e, oracle j = .error e) → oracle k = .ok p →
      fetchDataWithRetry oracle url n = (.ok p, expectedTraceFrom url 0 (k + 1))) ∧
    ((∀ j, j < n → ∃ e, oracle j = .error e) →
      fetchDataWithRetry oracle url n =
        (.error (.plain "All attempts were failed"), expectedTraceFrom url 0 n)) := by
  refine ⟨fetchAttempts_count oracle url n 0, ?_, ?_⟩
  · intro k p hk hfail hok
    exact fetchAttempts_first_success oracle url n 0 k p hk (by simpa using hfail)
      (by simpa using hok)
  · intro hfail
    exact fetchAttempts_all_fail oracle url n 0 (by simpa using hfail)

/-- Oracle for the C5 witness: attempt 0 fails, attempt 1 succeeds. -/
def w5oracle : FetchOracle := fun i =>
  if i = 0 then .error (.plain "API returned status 500") else .ok emptyBundlePayload

theorem spec_C5_witness :
    fetchDataWithRetry w5oracle "https://hapi.fhir.org/baseR4/Encounter?date=7" 3 =
      (.ok emptyBundlePayload,
        [.fetchCall "https://hapi.fhir.org/baseR4/Encounter?date=7", .sleep 2,
          .fetchCall "https://hapi.fhir.org/baseR4/Encounter?date=7"]) := by
  have h := (spec_C5 w5oracle "https://hapi.fhir.org/baseR4/Encounter?date=7" 3).2.1 1
    emptyBundlePayload (by omega)
    (by intro j hj; exact ⟨.plain "API returned status 500", by
      have hj0 : j = 0 := by omega
      subst hj0; rfl⟩)
    (by rfl)
  simpa [expectedTraceFrom] using h

/-! ## C4 — the terminal error does not carry the last cause -/

/-- Oracle for the C4 counterexample: every attempt fails with the
distinctive cause `API returned status 500`. -/
def c4oracle : FetchOracle := fun _ => .error (.plain "API returned status 500")

/-- C4 counterexample: with every attempt failing with cause
`API returned status 500`, the terminal error returned after the retry
budget is the fixed `All attempts were failed`, whose unwrap chain does
not contain that cause — the terminal error does not carry the last
underlying cause of failure. -/
theorem spec_C4_counterexample :
    (fetchDataWithRetry c4oracle "https://hapi.fhir.org/baseR4/Patient/pa1" 3).1 =
      .error (.plain "All attempts were failed") ∧
    ¬ (GoError.plain "All attempts were failed").carries
        (.plain "API returned status 500") := by
  constructor
  · rfl
  · intro hcarries
    rcases hcarries with ⟨hmem, _⟩
    simp [GoError.chain] at hmem

/-- C4 amended: after `maxAttempts` consecutive failures the retrying
fetch returns the fixed terminal error
`fmt.Errorf("All attempts were failed")`, which carries no underlying
cause at all (its unwrap chain is just itself, whatever the attempts'
causes were). -/
theorem spec_C4 (oracle : FetchOracle) (url : String) (n : Nat)
    (hfail : ∀ j, j < n → ∃ e, oracle j = .error e) :
    (fetchDataWithRetry oracle url n).1 = .error (.plain "All attempts were failed") ∧
    ∀ c, ¬ (GoError.plain "All attempts were failed").carries c := by
  constructor
  · have h := fetchAttempts_all_fail oracle url n 0 (by simpa using hfail)
    rw [fetchDataWithRetry, h]
  · intro c hcarries
    rcases hcarries with ⟨hmem, hne⟩
    simp [GoError.chain] at hmem
    exact hne (by rw [hmem])

theorem spec_C4_witness :
    (fetchDataWithRetry c4oracle "https://hapi.fhir.org/baseR4/Patient/pa1" 3).1 =
      .error (.plain "All attempts were failed") ∧
    ∀ c, ¬ (GoError.plain "All attempts were failed").carries c :=
  spec_C4 c4oracle "https://hapi.fhir.org/baseR4/Patient/pa1" 3
    (fun _ _ => ⟨.plain "API returned status 500", rfl⟩)

/-! ## C1 — validation failures quarantine, but an empty participant array panics -/

/-- An otherwise-valid candidate whose participant list is present but
empty (JSON `"participant": []`), i.e. with no participant references. -/
def emptyParticipantEnc : Encounter :=
  { resourceType := "Encounter", id := "e2", status := "finished",
    cls := { system := "http://terminology.hl7.org/CodeSystem/v3-ActCode", code := "AMB" },
    periodStart := "", periodEnd := "",
    participant := some [], subject := { reference := "Patient/pa1" } }

/-- C1 counterexample: a candidate with no participant references —
participant present but empty — is missing a required field, yet
`processEncounter` panics on `enc.Participant[0]` instead of adding the
source URL to `invalid_encounters`: the trace is empty (no quarantine
write) and the candidate got past the validation check. -/
theorem spec_C1_counterexample :
    processEncounter failingFetchEnv emptyParticipantEnc
        "https://hapi.fhir.org/baseR4/Encounter/e2" "001" = (.panicked, []) := by
  rfl

/-- C1 amended: when a candidate has an empty status, empty class code,
an absent (nil) participant list, an empty subject reference, or an empty
identifying URL, `processEncounter` adds exactly the source URL to
`invalid_encounters` and stops — its whole trace is that single quarantine
write, so no fetch call is performed and the candidate never proceeds
past validation. A candidate whose participant list is present but empty
instead escapes validation and panics on the first-participant indexing,
with no quarantine write at all. -/
theorem spec_C1 (env : ProcEnv) (enc : Encounter) (fullUrl clientID : String) :
    (enc.status = "" ∨ enc.cls.code = "" ∨ enc.participant = none ∨
        enc.subject.reference = "" ∨ fullUrl = "" →
      processEncounter env enc fullUrl clientID =
        (.returned, [.sAddUrl "invalid_encounters" fullUrl])) ∧
    (enc.status ≠ "" → enc.cls.code ≠ "" → enc.participant = some [] →
        enc.subject.reference ≠ "" → fullUrl ≠ "" →
      processEncounter env enc fullUrl clientID = (.panicked, [])) := by
  constructor
  · intro h
    simp only [processEncounter, if_pos h]
  · intro h1 h2 h3 h4 h5
    simp only [processEncounter, h3]
    rw [if_neg (by simp [h1, h2, h4, h5])]

theorem spec_C1_witness :
    processEncounter failingFetchEnv { goodEnc with status := "" }
        "https://hapi.fhir.org/baseR4/Encounter/e1" "001" =
      (.returned,
        [.sAddUrl "invalid_encounters" "https://hapi.fhir.org/baseR4/Encounter/e1"]) ∧
    processEncounter failingFetchEnv emptyParticipantEnc
        "https://hapi.fhir.org/baseR4/Encounter/e2" "001" = (.panicked, []) :=
  ⟨(spec_C1 failingFetchEnv { goodEnc with status := "" }
      "https://hapi.fhir.org/baseR4/Encounter/e1" "001").1 (Or.inl rfl),
    (spec_C1 failingFetchEnv emptyParticipantEnc
      "https://hapi.fhir.org/baseR4/Encounter/e2" "001").2
      (by decide) (by decide) rfl (by decide) (by decide)⟩

/-- The `countEvents` of a store/queue classifier over a retry trace is 0. -/
theorem countEvents_fetch_zero (p : Event → Bool)
    (hp1 : ∀ u, p (.fetchCall u) = false) (hp2 : ∀ s, p (.sleep s) = false)
    (oracle : FetchOracle) (url : String) (n : Nat) :
    countEvents p (fetchDataWithRetry oracle url n).2 = 0 := by
  rw [countEvents, fetchDataWithRetry, fetchAttempts_filter_nil p hp1 hp2]
  rfl

/-! ## C7 — failed reference resolution quarantines and publishes nothing -/

/-- C7: a candidate that passes required-field validation and has a
non-empty first participant reference, but whose practitioner or patient
resolution fails — retry budget exhausted, payload not decoding, or the
entity missing a name entry with a given token (`practitionerResolution`
or `patientResolution` is `none`) — ends with a normal return, its source
URL written to `invalid_encounters`, and no `SendMessage` call in its
trace. -/
theorem spec_C7 (env : ProcEnv) (enc : Encounter) (fullUrl clientID : String)
    (p0 : ParticipantEntry) (rest : List ParticipantEntry)
    (h1 : enc.status ≠ "") (h2 : enc.cls.code ≠ "")
    (h3 : enc.participant = some (p0 :: rest))
    (h4 : enc.subject.reference ≠ "") (h5 : fullUrl ≠ "")
    (h6 : p0.individual.reference ≠ "")
    (hfail : practitionerResolution env.practitionerFetch = none ∨
      patientResolution env.patientFetch = none) :
    (processEncounter env enc fullUrl clientID).1 = .returned ∧
    Event.sAddUrl "invalid_encounters" fullUrl ∈
      (processEncounter env enc fullUrl clientID).2 ∧
    countEvents isPublishEvent (processEncounter env enc fullUrl clientID).2 = 0 := by
  rw [processEncounter_post_validation env enc fullUrl clientID p0 rest h1 h2 h3 h4 h5 h6]
  cases hpr : practitionerResolution env.practitionerFetch with
  | none =>
    simp only [hpr]
    refine ⟨trivial, by simp, ?_⟩
    rw [countEvents_append]
    rw [countEvents_fetch_zero isPublishEvent (fun _ => rfl) (fun _ => rfl)]
    rfl
  | some prdb =>
    have hpa : patientResolution env.patientFetch = none := by
      rcases hfail with h | h
      · rw [hpr] at h; cases h
      · exact h
    simp only [hpr, hpa]
    refine ⟨trivial, by simp, ?_⟩
    rw [countEvents_append, countEvents_append]
    rw [countEvents_fetch_zero isPublishEvent (fun _ => rfl) (fun _ => rfl)]
    rw [countEvents_fetch_zero isPublishEvent (fun _ => rfl) (fun _ => rfl)]
    rfl

theorem spec_C7_witness :
    (processEncounter failingFetchEnv goodEnc
        "https://hapi.fhir.org/baseR4/Encounter/e1" "001").1 = .returned ∧
    Event.sAddUrl "invalid_encounters" "https://hapi.fhir.org/baseR4/Encounter/e1" ∈
      (processEncounter failingFetchEnv goodEnc
        "https://hapi.fhir.org/baseR4/Encounter/e1" "001").2 ∧
    countEvents isPublishEvent (processEncounter failingFetchEnv goodEnc
        "https://hapi.fhir.org/baseR4/Encounter/e1" "001").2 = 0 :=
  spec_C7 failingFetchEnv goodEnc "https://hapi.fhir.org/baseR4/Encounter/e1" "001"
    { individual := { reference := "Practitioner/pr1" } } []
    (by decide) (by decide) rfl (by decide) (by decide) (by decide) (Or.inl rfl)

/-! ## C9 — frame of `processEncounter` -/

/-- The per-invocation frame of `processEncounter`: no cursor write, no
addition to `unprocessed_dates`, at most one `SADD` — and only of the
candidate's own source URL into `invalid_encounters` — and at most one
`SendMessage`. -/
def FrameOk (fullUrl : String) (evs : List Event) : Prop :=
  countEvents isCursorWrite evs = 0 ∧
  countEvents isDateAdd evs = 0 ∧
  countEvents isUrlAdd evs ≤ 1 ∧
  (∀ e ∈ evs, isUrlAdd e = true → e = .sAddUrl "invalid_encounters" fullUrl) ∧
  countEvents isPublishEvent evs ≤ 1

theorem frameOk_nil (fullUrl : String) : FrameOk fullUrl [] := by
  refine ⟨rfl, rfl, by simp [countEvents], ?_, by simp [countEvents]⟩
  intro e he
  simp at he

theorem frameOk_sAdd (fullUrl : String) :
    FrameOk fullUrl [.sAddUrl "invalid_encounters" fullUrl] := by
  refine ⟨rfl, rfl, by simp [countEvents, List.filter, isUrlAdd], ?_,
    by simp [countEvents, List.filter, isPublishEvent]⟩
  intro e he _
  simpa using he

/-- Prepending events that belong to none of the four tracked classes
preserves the frame. -/
theorem frameOk_net_append (fullUrl : String) (net evs : List Event)
    (hnet : ∀ e ∈ net, isCursorWrite e = false ∧ isDateAdd e = false ∧
      isUrlAdd e = false ∧ isPublishEvent e = false)
    (h : FrameOk fullUrl evs) : FrameOk fullUrl (net ++ evs) := by
  obtain ⟨hc, hd, hu, hm, hp⟩ := h
  have hfilter : ∀ (p : Event → Bool), (∀ e ∈ net, p e = false) →
      countEvents p net = 0 := by
    intro p hp0
    rw [countEvents, List.filter_eq_nil_iff.mpr (by intro e he; simp [hp0 e he])]
    rfl
  refine ⟨?_, ?_, ?_, ?_, ?_⟩
  · rw [countEvents_append, hfilter _ (fun e he => (hnet e he).1), hc]
  · rw [countEvents_append, hfilter _ (fun e he => (hnet e he).2.1), hd]
  · rw [countEvents_append, hfilter _ (fun e he => (hnet e he).2.2.1)]; omega
  · intro e he hurl
    rcases List.mem_append.mp he with h | h
    · rw [(hnet e h).2.2.1] at hurl; cases hurl
    · exact hm e h hurl
  · rw [countEvents_append, hfilter _ (fun e he => (hnet e he).2.2.2)]; omega

/-- Every event of a retry trace is outside the four tracked classes. -/
theorem fetch_net (oracle : FetchOracle) (url : String) (n : Nat) :
    ∀ e ∈ (fetchDataWithRetry oracle url n).2, isCursorWrite e = false ∧
      isDateAdd e = false ∧ isUrlAdd e = false ∧ isPublishEvent e = false := by
  intro e he
  rcases fetchAttempts_events oracle url n 0 e he with h | ⟨s, h⟩ <;> subst h <;>
    exact ⟨rfl, rfl, rfl, rfl⟩

/-- Prepending one `SendMessage` event preserves the frame when the rest
of the trace has no publish event. -/
theorem frameOk_publish_cons (fullUrl clientID : String) (msg : FHIRMessage)
    (evs : List Event) (h : FrameOk fullUrl evs)
    (hp : countEvents isPublishEvent evs = 0) :
    FrameOk fullUrl (.publish clientID msg :: evs) := by
  obtain ⟨hc, hd, hu, hm, _⟩ := h
  refine ⟨?_, ?_, ?_, ?_, ?_⟩
  · simpa [countEvents, List.filter, isCursorWrite] using hc
  · simpa [countEvents, List.filter, isDateAdd] using hd
  · simpa [countEvents, List.filter, isUrlAdd] using hu
  · intro e he hurl
    rcases List.mem_cons.mp he with h | h
    · subst h; cases hurl
    · exact hm e h hurl
  · simp only [countEvents, List.filter] at hp ⊢
    simp [isPublishEvent, hp]

/-- The trace of `sendToSQS` satisfies the frame on its own. -/
theorem frameOk_send (fullUrl : String) (env : ProcEnv) (msg : FHIRMessage)
    (clientID : String) : FrameOk fullUrl (sendToSQS env msg clientID).2 := by
  rcases sendToSQS_events env msg clientID with h | h <;> rw [h]
  · exact frameOk_nil fullUrl
  · exact frameOk_publish_cons fullUrl clientID msg [] (frameOk_nil fullUrl) rfl

/-- The trace of `sendToSQS` followed by one quarantine write satisfies
the frame. -/
theorem frameOk_send_sAdd (fullUrl : String) (env : ProcEnv) (msg : FHIRMessage)
    (clientID : String) :
    FrameOk fullUrl ((sendToSQS env msg clientID).2 ++
      [.sAddUrl "invalid_encounters" fullUrl]) := by
  rcases sendToSQS_events env msg clientID with h | h <;> rw [h]
  · exact frameOk_sAdd fullUrl
  · exact frameOk_publish_cons fullUrl clientID msg _ (frameOk_sAdd fullUrl) rfl

/-- C9: `processEncounter` only ever touches `invalid_encounters` and the
queue — its trace never contains a cursor write or an addition to
`unprocessed_dates`, contains at most one quarantine `SADD` (and only of
the invocation's own source URL into `invalid_encounters`), and at most
one `SendMessage`. -/
theorem spec_C9 (env : ProcEnv) (enc : Encounter) (fullUrl clientID : String) :
    FrameOk fullUrl (processEncounter env enc fullUrl clientID).2 := by
  unfold processEncounter
  dsimp only
  split
  · exact frameOk_sAdd fullUrl
  · split
    · exact frameOk_nil fullUrl
    · exact frameOk_nil fullUrl
    · split
      · exact frameOk_nil fullUrl
      · split
        · exact frameOk_nil fullUrl
        · split
          · exact frameOk_net_append _ _ _ (fetch_net _ _ _) (frameOk_sAdd _)
          · split
            · exact frameOk_net_append _ _ _ (fetch_net _ _ _) (frameOk_sAdd _)
            · split
              · exact frameOk_net_append _ _ _ (fetch_net _ _ _) (frameOk_sAdd _)
              · split
                · exact frameOk_net_append _ _ _ (fetch_net _ _ _) (frameOk_sAdd _)
                · split
                  · simp only [List.append_assoc]
                    exact frameOk_net_append _ _ _ (fetch_net _ _ _)
                      (frameOk_net_append _ _ _ (fetch_net _ _ _) (frameOk_sAdd _))
                  · split
                    · simp only [List.append_assoc]
                      exact frameOk_net_append _ _ _ (fetch_net _ _ _)
                        (frameOk_net_append _ _ _ (fetch_net _ _ _) (frameOk_sAdd _))
                    · split
                      · simp only [List.append_assoc]
                        exact frameOk_net_append _ _ _ (fetch_net _ _ _)
                          (frameOk_net_append _ _ _ (fetch_net _ _ _) (frameOk_sAdd _))
                      · split
                        · simp only [List.append_assoc]
                          exact frameOk_net_append _ _ _ (fetch_net _ _ _)
                            (frameOk_net_append _ _ _ (fetch_net _ _ _) (frameOk_sAdd _))
                        · split
                          · simp only [List.append_assoc]
                            exact frameOk_net_append _ _ _ (fetch_net _ _ _)
                              (frameOk_net_append _ _ _ (fetch_net _ _ _)
                                (frameOk_send _ _ _ _))
                          · simp only [List.append_assoc]
                            exact frameOk_net_append _ _ _ (fetch_net _ _ _)
                              (frameOk_net_append _ _ _ (fetch_net _ _ _)
                                (frameOk_send_sAdd _ _ _ _))
                          · simp only [List.append_assoc]
                            exact frameOk_net_append _ _ _ (fetch_net _ _ _)
                              (frameOk_net_append _ _ _ (fetch_net _ _ _)
                                (frameOk_send _ _ _ _))

/-- Indexing the fan-out: entry `i` (with the fan-out started at offset
`j`) is processed by `processEncounter` under its own environment with
the alternating group key of position `j + i`. -/
theorem fanOut_get (encEnvs : Nat → ProcEnv) :
    ∀ (entries : List BundleEntry) (j i : Nat),
      (fanOut encEnvs j entries).get? i = (entries.get? i).map (fun e =>
        processEncounter (encEnvs (j + i)) e.resource e.fullUrl
          (if (j + i) % 2 == 1 then "002" else "001")) := by
  intro entries
  induction entries with
  | nil => intro j i; cases i <;> rfl
  | cons e rest ih =>
    intro j i
    cases i with
    | zero => rfl
    | succ k =>
      have hidx : j + 1 + k = j + (k + 1) := by omega
      simpa [fanOut, hidx] using ih (j + 1) k

/-! ## C6 — one publish per doubly-resolved candidate, keyed by parity -/

/-- C6: a candidate at position `i` of its day's batch that passes
validation and whose two references both resolve (and whose AWS config
loads and queue URL is set, so the publish step is reached) produces a
trace with exactly one `SendMessage` event, whose group key is `"002"`
for odd `i` and `"001"` for even `i` — determined solely by the position
parity. -/
theorem spec_C6 (encEnvs : Nat → ProcEnv) (entries : List BundleEntry) (i : Nat)
    (entry : BundleEntry) (p0 : ParticipantEntry) (rest : List ParticipantEntry)
    (prdb : PractitionerDB) (padb : PatientDB)
    (hentry : entries.get? i = some entry)
    (h1 : entry.resource.status ≠ "") (h2 : entry.resource.cls.code ≠ "")
    (h3 : entry.resource.participant = some (p0 :: rest))
    (h4 : entry.resource.subject.reference ≠ "") (h5 : entry.fullUrl ≠ "")
    (h6 : p0.individual.reference ≠ "")
    (hpr : practitionerResolution (encEnvs i).practitionerFetch = some prdb)
    (hpa : patientResolution (encEnvs i).patientFetch = some padb)
    (hcfg : (encEnvs i).awsConfigErr = none)
    (hq : (encEnvs i).sqsQueueUrl ≠ "") :
    ∃ res msg, (fanOut encEnvs 0 entries).get? i = some res ∧
      res.2.filter isPublishEvent =
        [.publish (if i % 2 == 1 then "002" else "001") msg] := by
  rw [fanOut_get encEnvs entries 0 i, hentry]
  simp only [Option.map_some, Nat.zero_add]
  refine ⟨_,
    { encounter :=
        { fhirId := entry.resource.id, fullUrl := entry.fullUrl
          status := entry.resource.status, cls := entry.resource.cls.code
          periodStart := entry.resource.periodStart
          periodEnd := entry.resource.periodEnd
          practitionerId := extractReferenceID p0.individual.reference
          patientId := extractReferenceID entry.resource.subject.reference }
      practitioner := prdb, patient := padb },
    rfl, ?_⟩
  beta_reduce
  rw [processEncounter_post_validation (encEnvs i) entry.resource entry.fullUrl
    (if i % 2 == 1 then "002" else "001") p0 rest h1 h2 h3 h4 h5 h6, hpr, hpa]
  dsimp only
  cases hsend : (encEnvs i).sqsSendErr with
  | some e =>
    have hs : sendToSQS (encEnvs i)
        { encounter :=
            { fhirId := entry.resource.id, fullUrl := entry.fullUrl
              status := entry.resource.status, cls := entry.resource.cls.code
              periodStart := entry.resource.periodStart
              periodEnd := entry.resource.periodEnd
              practitionerId := extractReferenceID p0.individual.reference
              patientId := extractReferenceID entry.resource.subject.reference }
          practitioner := prdb, patient := padb }
        (if i % 2 == 1 then "002" else "001") =
        (.fail (.wrap "error sending message to SQS" e),
          [.publish (if i % 2 == 1 then "002" else "001")
            { encounter :=
                { fhirId := entry.resource.id, fullUrl := entry.fullUrl
                  status := entry.resource.status, cls := entry.resource.cls.code
                  periodStart := entry.resource.periodStart
                  periodEnd := entry.resource.periodEnd
                  practitionerId := extractReferenceID p0.individual.reference
                  patientId := extractReferenceID entry.resource.subject.reference }
              practitioner := prdb, patient := padb }]) := by
      simp only [sendToSQS, hcfg]
      rw [if_neg hq, hsend]
    rw [hs]
    simp only [fetchDataWithRetry, List.filter_append]
    rw [fetchAttempts_filter_nil isPublishEvent (fun _ => rfl) (fun _ => rfl)]
    rw [fetchAttempts_filter_nil isPublishEvent (fun _ => rfl) (fun _ => rfl)]
    rfl
  | none =>
    have hs : sendToSQS (encEnvs i)
        { encounter :=
            { fhirId := entry.resource.id, fullUrl := entry.fullUrl
              status := entry.resource.status, cls := entry.resource.cls.code
              periodStart := entry.resource.periodStart
              periodEnd := entry.resource.periodEnd
              practitionerId := extractReferenceID p0.individual.reference
              patientId := extractReferenceID entry.resource.subject.reference }
          practitioner := prdb, patient := padb }
        (if i % 2 == 1 then "002" else "001") =
        (.ok,
          [.publish (if i % 2 == 1 then "002" else "001")
            { encounter :=
                { fhirId := entry.resource.id, fullUrl := entry.fullUrl
                  status := entry.resource.status, cls := entry.resource.cls.code
                  periodStart := entry.resource.periodStart
                  periodEnd := entry.resource.periodEnd
                  practitionerId := extractReferenceID p0.individual.reference
                  patientId := extractReferenceID entry.resource.subject.reference }
              practitioner := prdb, patient := padb }]) := by
      simp only [sendToSQS, hcfg]
      rw [if_neg hq, hsend]
    rw [hs]
    simp only [fetchDataWithRetry, List.filter_append]
    rw [fetchAttempts_filter_nil isPublishEvent (fun _ => rfl) (fun _ => rfl)]
    rw [fetchAttempts_filter_nil isPublishEvent (fun _ => rfl) (fun _ => rfl)]
    rfl

/-- A batch entry wrapping `goodEnc` under its source URL. -/
def goodEntry : BundleEntry :=
  { fullUrl := "https://hapi.fhir.org/baseR4/Encounter/e1", resource := goodEnc }

theorem spec_C6_witness :
    ∃ res msg, (fanOut (fun _ => happyEnv) 0 [goodEntry]).get? 0 = some res ∧
      res.2.filter isPublishEvent =
        [.publish (if 0 % 2 == 1 then "002" else "001") msg] :=
  spec_C6 (fun _ => happyEnv) [goodEntry] 0 goodEntry
    { individual := { reference := "Practitioner/pr1" } } []
    { fhirId := "pr1", givenName := "Gregory", familyName := "House" }
    { fhirId := "pa1", givenName := "Irene", familyName := "Adler",
      birthDate := "1980-01-01", gender := "female" }
    rfl (by decide) (by decide) rfl (by decide) (by decide) (by decide)
    rfl rfl rfl (by decide)

/-! ## C10 — empty queue URL is fatal at publish time, unchecked at startup -/

/-- The `happyEnv` plumbing with the `SQS_QUEUE_URL` environment variable empty. -/
def emptyQueueEnv : ProcEnv := { happyEnv with sqsQueueUrl := "" }

/-- C10: when `SQS_QUEUE_URL` is empty, the first candidate that reaches
the publish step — it passed validation and both its references resolved
— ends the whole process through `log.Fatal` (`.fatal` outcome) with no
quarantine write in its trace, while the startup validation of `main` is
entirely independent of the `SQS_QUEUE_URL` value: the check happens at
publish time, not at startup. -/
theorem spec_C10 (env : ProcEnv) (enc : Encounter) (fullUrl clientID : String)
    (p0 : ParticipantEntry) (rest : List ParticipantEntry)
    (prdb : PractitionerDB) (padb : PatientDB)
    (h1 : enc.status ≠ "") (h2 : enc.cls.code ≠ "")
    (h3 : enc.participant = some (p0 :: rest))
    (h4 : enc.subject.reference ≠ "") (h5 : fullUrl ≠ "")
    (h6 : p0.individual.reference ≠ "")
    (hpr : practitionerResolution env.practitionerFetch = some prdb)
    (hpa : patientResolution env.patientFetch = some padb)
    (hcfg : env.awsConfigErr = none)
    (hq : env.sqsQueueUrl = "") :
    (processEncounter env enc fullUrl clientID).1 = .fatal ∧
    countEvents isUrlAdd (processEncounter env enc fullUrl clientID).2 = 0 ∧
    ∀ (vars : EnvVars) (q1 q2 : String),
      startupCheck { vars with sqsQueueUrl := q1 } =
        startupCheck { vars with sqsQueueUrl := q2 } := by
  rw [processEncounter_post_validation env enc fullUrl clientID p0 rest h1 h2 h3 h4 h5 h6,
    hpr, hpa]
  dsimp only
  have hs : sendToSQS env
      { encounter :=
          { fhirId := enc.id, fullUrl := fullUrl, status := enc.status
            cls := enc.cls.code, periodStart := enc.periodStart
            periodEnd := enc.periodEnd
            practitionerId := extractReferenceID p0.individual.reference
            patientId := extractReferenceID enc.subject.reference }
        practitioner := prdb, patient := padb } clientID = (.fatalExit, []) := by
    simp only [sendToSQS, hcfg]
    rw [if_pos hq]
  rw [hs]
  refine ⟨rfl, ?_, fun vars q1 q2 => rfl⟩
  rw [List.append_nil, countEvents_append]
  rw [countEvents_fetch_zero isUrlAdd (fun _ => rfl) (fun _ => rfl)]
  rw [countEvents_fetch_zero isUrlAdd (fun _ => rfl) (fun _ => rfl)]

theorem spec_C10_witness :
    (processEncounter emptyQueueEnv goodEnc
        "https://hapi.fhir.org/baseR4/Encounter/e1" "001").1 = .fatal ∧
    countEvents isUrlAdd (processEncounter emptyQueueEnv goodEnc
        "https://hapi.fhir.org/baseR4/Encounter/e1" "001").2 = 0 ∧
    ∀ (vars : EnvVars) (q1 q2 : String),
      startupCheck { vars with sqsQueueUrl := q1 } =
        startupCheck { vars with sqsQueueUrl := q2 } :=
  spec_C10 emptyQueueEnv goodEnc "https://hapi.fhir.org/baseR4/Encounter/e1" "001"
    { individual := { reference := "Practitioner/pr1" } } []
    { fhirId := "pr1", givenName := "Gregory", familyName := "House" }
    { fhirId := "pa1", givenName := "Irene", familyName := "Adler",
      birthDate := "1980-01-01", gender := "female" }
    (by decide) (by decide) rfl (by decide) (by decide) (by decide)
    rfl rfl rfl rfl

/-- No traced event ever changes the cursor key: only `main`'s own `SET`
does (modelled directly in `loopIter`). -/
theorem applyEvent_lastProcessedDate (s : Store) (e : Event) :
    (applyEvent s e).lastProcessedDate = s.lastProcessedDate := by
  cases e <;> simp only [applyEvent] <;> (try split) <;> (try split) <;> rfl

theorem applyEvents_lastProcessedDate (evs : List Event) :
    ∀ s : Store, (applyEvents s evs).lastProcessedDate = s.lastProcessedDate := by
  induction evs with
  | nil => intro s; rfl
  | cons e rest ih =>
    intro s
    show (applyEvents (applyEvent s e) rest).lastProcessedDate = _
    rw [ih, applyEvent_lastProcessedDate]

/-- Network events (fetch attempts, sleeps) do not change the store. -/
theorem applyEvents_net (oracle : FetchOracle) (url : String) (n : Nat) :
    ∀ s : Store, applyEvents s (fetchDataWithRetry oracle url n).2 = s := by
  have hnet : ∀ e ∈ (fetchDataWithRetry oracle url n).2, ∀ s : Store, applyEvent s e = s := by
    intro e he s
    rcases fetchAttempts_events oracle url n 0 e he with h | ⟨k, h⟩ <;> subst h <;> rfl
  generalize hevs : (fetchDataWithRetry oracle url n).2 = evs at hnet
  clear hevs
  induction evs with
  | nil => intro s; rfl
  | cons e rest ih =>
    intro s
    show applyEvents (applyEvent s e) rest = _
    rw [hnet e (by simp)]
    exact ih (fun x hx => hnet x (by simp [hx])) s

/-- Applying the quarantine `SADD` of a date makes it a member. -/
theorem applyEvent_sAddDate_self (s : Store) (d : Nat) :
    d ∈ (applyEvent s (.sAddDate "unprocessed_dates" d)).unprocessedDates := by
  simp only [applyEvent, if_true]
  split
  · next h => exact h
  · simp

/-- Splitting `applyEvents` over an appended trace. -/
theorem applyEvents_append (s : Store) (a b : List Event) :
    applyEvents s (a ++ b) = applyEvents (applyEvents s a) b := by
  simp [applyEvents, List.foldl_append]

/-- Behavior of `processDate` when the day's batch fetch exhausts its retry budget:
the date is quarantined and an error wrapping the terminal fetch error is
returned. -/
theorem processDate_fetch_fail (env : DateEnv) (d : Nat)
    (h : fetchFirstSuccess env.batchFetch 0 3 = none) :
    processDate env d =
      (.errored (.wrap ("falha ao processar data " ++ toString d)
          (.plain "All attempts were failed")),
        (fetchDataWithRetry env.batchFetch (batchUrl d) 3).2 ++
          [.sAddDate "unprocessed_dates" d]) := by
  have hbf := fetchAttempts_fst env.batchFetch (batchUrl d) 3 0
  rw [h] at hbf
  dsimp only at hbf
  unfold processDate
  dsimp only
  simp only [fetchDataWithRetry, hbf]

/-- Behavior of `processDate` when the batch fetch succeeds but the payload does not
decode as a `Bundle`: an error is returned with no quarantine write. -/
theorem processDate_decode_fail (env : DateEnv) (d : Nat) (pl : Payload) (e : GoError)
    (h1 : fetchFirstSuccess env.batchFetch 0 3 = some pl)
    (h2 : pl.bundle = .error e) :
    processDate env d =
      (.errored (.wrap "erro ao parsear JSON de encontros" e),
        (fetchDataWithRetry env.batchFetch (batchUrl d) 3).2) := by
  have hbf := fetchAttempts_fst env.batchFetch (batchUrl d) 3 0
  rw [h1] at hbf
  dsimp only at hbf
  unfold processDate
  dsimp only
  simp only [fetchDataWithRetry, hbf, h2]

/-- Here `processDate` returns a nil error when the batch fetch succeeds, the
payload decodes, and no fan-out task panics or hits `log.Fatal`. -/
theorem processDate_ok (env : DateEnv) (d : Nat) (pl : Payload) (b : Bundle)
    (h1 : fetchFirstSuccess env.batchFetch 0 3 = some pl)
    (h2 : pl.bundle = .ok b)
    (h3 : ∀ r ∈ fanOut env.encEnvs 0 b.entry, ¬(r.1 = .panicked ∨ r.1 = .fatal)) :
    (processDate env d).1 = .ok := by
  have hbf := fetchAttempts_fst env.batchFetch (batchUrl d) 3 0
  rw [h1] at hbf
  dsimp only at hbf
  unfold processDate
  dsimp only
  simp only [fetchDataWithRetry, hbf, h2]
  by_cases hemp : b.entry.isEmpty
  · rw [if_pos hemp]
  · rw [if_neg hemp]
    have hany : (fanOut env.encEnvs 0 b.entry).any
        (fun r => decide (r.1 = .panicked ∨ r.1 = .fatal)) = false := by
      rw [List.any_eq_false]
      intro r hr
      simpa using h3 r hr
    simp only [hany]
    rfl

/-! ## C2 — per-day cursor advancement -/

/-- The empty initial store. -/
def store0 : Store :=
  { lastProcessedDate := none, unprocessedDates := [], invalidEncounters := [] }

/-- A run environment whose every day fetches an empty bundle at the
first attempt and whose cursor writes succeed. -/
def okDayLoopEnv : LoopEnv :=
  { dateEnvs := fun _ =>
      { batchFetch := fun _ => .ok emptyBundlePayload, encEnvs := fun _ => happyEnv },
    cursorWriteOk := fun _ => true }

/-- A run environment whose every batch fetch succeeds at once with a
payload that does not decode as a bundle. -/
def decodeFailLoopEnv : LoopEnv :=
  { dateEnvs := fun _ =>
      { batchFetch := fun _ => .ok malformedPayload, encEnvs := fun _ => happyEnv },
    cursorWriteOk := fun _ => true }

/-- A run environment whose every batch fetch fails every attempt. -/
def failDayLoopEnv : LoopEnv :=
  { dateEnvs := fun _ =>
      { batchFetch := fun _ => .error (.plain "API returned status 500"),
        encEnvs := fun _ => happyEnv },
    cursorWriteOk := fun _ => true }

/-- C2 counterexample: on day 0 the batch fetch succeeds at the very
first attempt (within the retry budget), yet — because the fetched
payload does not decode as a bundle — the iteration neither persists the
cursor as day 0 nor advances the working date to day 1: `loopIter` stays
on day 0 with the store unchanged. This contradicts the claim that a
fetch success within the retry budget implies cursor persistence and
advancement. -/
theorem spec_C2_counterexample :
    fetchFirstSuccess (decodeFailLoopEnv.dateEnvs 0).batchFetch 0 3 = some malformedPayload ∧
    loopIter decodeFailLoopEnv store0 0 = .cont store0 0 [.fetchCall (batchUrl 0)] := by
  exact ⟨rfl, rfl⟩

/-- C2 amended: for a date `d`, (a) if the batch fetch succeeds within
the retry budget *and the payload decodes as a bundle* (and no fan-out
task kills the process), the iteration issues the cursor write — which,
when the store accepts it, persists `d` — and advances the working date
to `d + 1`; (b) if the fetch never succeeds within the budget, `d` is
added to `unprocessed_dates` and the working date and cursor are not
advanced past `d`. -/
theorem spec_C2 (env : LoopEnv) (d : Nat) (s : Store) :
    (∀ pl b, fetchFirstSuccess (env.dateEnvs d).batchFetch 0 3 = some pl →
      pl.bundle = .ok b →
      (∀ r ∈ fanOut (env.dateEnvs d).encEnvs 0 b.entry,
        ¬(r.1 = .panicked ∨ r.1 = .fatal)) →
      env.cursorWriteOk d = true →
      ∃ s2 evs, loopIter env s d = .cont s2 (d + 1) evs ∧
        s2.lastProcessedDate = some d) ∧
    (fetchFirstSuccess (env.dateEnvs d).batchFetch 0 3 = none →
      ∃ s2 evs, loopIter env s d = .cont s2 d evs ∧ d ∈ s2.unprocessedDates ∧
        s2.lastProcessedDate = s.lastProcessedDate) := by
  constructor
  · intro pl b hps hb hnodeath hwrite
    have hok := processDate_ok (env.dateEnvs d) d pl b hps hb hnodeath
    unfold loopIter
    dsimp only
    rw [hok, hwrite]
    exact ⟨_, _, rfl, rfl⟩
  · intro hps
    have hpd := processDate_fetch_fail (env.dateEnvs d) d hps
    unfold loopIter
    dsimp only
    rw [hpd]
    refine ⟨_, _, rfl, ?_, ?_⟩
    · rw [applyEvents_append, applyEvents_net]
      show d ∈ (applyEvents _ (.sAddDate "unprocessed_dates" d :: [])).unprocessedDates
      exact applyEvent_sAddDate_self s d
    · rw [applyEvents_lastProcessedDate]

theorem spec_C2_witness :
    (∃ s2 evs, loopIter okDayLoopEnv store0 0 = .cont s2 1 evs ∧
      s2.lastProcessedDate = some 0) ∧
    (∃ s2 evs, loopIter failDayLoopEnv store0 0 = .cont s2 0 evs ∧
      0 ∈ s2.unprocessedDates ∧ s2.lastProcessedDate = store0.lastProcessedDate) :=
  ⟨(spec_C2 okDayLoopEnv 0 store0).1 emptyBundlePayload { entry := [] } rfl rfl
      (by intro r hr; simp [fanOut] at hr) rfl,
    (spec_C2 failDayLoopEnv 0 store0).2 rfl⟩

/-! ## C8 — not every failure is retried, quarantined, or fatal -/

/-- The `okDayLoopEnv` run with a checkpoint store that rejects cursor writes. -/
def noWriteLoopEnv : LoopEnv := { okDayLoopEnv with cursorWriteOk := fun _ => false }

/-- C8 counterexample: on day 0 the batch succeeds and the iteration then
issues the cursor write, which the store rejects. The iteration still
advances to day 1 with the identical trace and an unchanged store (cursor
still unset, both quarantine sets empty, no fatal outcome) — byte-for-byte
the same continuation as when the write succeeds, except for the lost
persistence. The failed checkpoint-store write is thus neither retried,
nor quarantined, nor fatal: it is dropped after a log line. -/
theorem spec_C8_counterexample :
    loopIter noWriteLoopEnv store0 0 =
      .cont store0 1 [.fetchCall (batchUrl 0), .setCursor 0] ∧
    loopIter okDayLoopEnv store0 0 =
      .cont { store0 with lastProcessedDate := some 0 } 1
        [.fetchCall (batchUrl 0), .setCursor 0] :=
  ⟨rfl, rfl⟩

/-- C8 amended: per-record and per-date failures are quarantined, config
errors are fatal, and a batch payload that fails to decode is retried (the
loop stays on the same date with the store untouched, so the date is
re-attempted on the next iteration); but a failed checkpoint-store cursor
write is only logged: the loop advances to the next day exactly as if the
write had succeeded, with the cursor unpersisted — that failure path is
neither retried, nor quarantined, nor fatal. -/
theorem spec_C8 (env : LoopEnv) (d : Nat) (s : Store) :
    (∀ pl e, fetchFirstSuccess (env.dateEnvs d).batchFetch 0 3 = some pl →
      pl.bundle = .error e →
      ∃ evs, loopIter env s d = .cont s d evs) ∧
    ((processDate (env.dateEnvs d) d).1 = .ok → env.cursorWriteOk d = false →
      ∃ evs, loopIter env s d =
        .cont (applyEvents s (processDate (env.dateEnvs d) d).2) (d + 1) evs ∧
        (applyEvents s (processDate (env.dateEnvs d) d).2).lastProcessedDate =
          s.lastProcessedDate) := by
  constructor
  · intro pl e hps hb
    have hpd := processDate_decode_fail (env.dateEnvs d) d pl e hps hb
    unfold loopIter
    dsimp only
    rw [hpd]
    rw [applyEvents_net]
    exact ⟨_, rfl⟩
  · intro hok hw
    unfold loopIter
    dsimp only
    rw [hok, hw]
    rw [if_neg (by simp)]
    exact ⟨_, rfl, applyEvents_lastProcessedDate _ _⟩

theorem spec_C8_witness :
    (∃ evs, loopIter decodeFailLoopEnv store0 0 = .cont store0 0 evs) ∧
    (∃ evs, loopIter noWriteLoopEnv store0 0 =
      .cont (applyEvents store0 (processDate (noWriteLoopEnv.dateEnvs 0) 0).2) 1 evs ∧
      (applyEvents store0 (processDate (noWriteLoopEnv.dateEnvs 0) 0).2).lastProcessedDate =
        store0.lastProcessedDate) :=
  ⟨(spec_C8 decodeFailLoopEnv 0 store0).1 malformedPayload (.plain "invalid character")
      rfl rfl,
    (spec_C8 noWriteLoopEnv 0 store0).2 rfl rfl⟩

/-! ## C3 — resuming re-fetches the cursor day itself -/

/-- One loop iteration never moves the working date backwards: it stays
(on error) or advances by one day (on success). -/
theorem loopIter_next (env : LoopEnv) (s : Store) (current : Nat) :
    ∀ s2 next evs, loopIter env s current = .cont s2 next evs →
      next = current ∨ next = current + 1 := by
  intro s2 next evs h
  unfold loopIter at h
  dsimp only at h
  split at h
  · cases h
  · cases h; left; rfl
  · split at h <;> (cases h; right; rfl)

/-- Every date the loop hands to `processDate` is at or after the date it
started from. -/
theorem mainLoop_dates_ge (env : LoopEnv) (endDate : Nat) :
    ∀ fuel current s x, x ∈ (mainLoop env endDate fuel current s).2 → current ≤ x := by
  intro fuel
  induction fuel with
  | zero => intro current s x hx; simp [mainLoop] at hx
  | succ m ih =>
    intro current s x hx
    unfold mainLoop at hx
    split at hx
    · simp at hx
    · rcases hiter : loopIter env s current with ⟨s1, next, evs⟩ | ⟨s1, evs⟩
      · rcases hloop : mainLoop env endDate m next s1 with ⟨s2, ds⟩
        simp only [hiter, hloop] at hx
        rcases List.mem_cons.mp hx with h | h
        · omega
        · have hnext : next ≤ x := by
            have h2 := ih next s1 x
            rw [hloop] at h2
            exact h2 h
          rcases loopIter_next env s current s1 next evs hiter with hn | hn <;> omega
      · simp only [hiter] at hx
        have hx0 : x = current := by simpa using hx
        omega

/-- With fuel and a start date inside the window, the first date handed
to `processDate` is the start date itself. -/
theorem mainLoop_head (env : LoopEnv) (endDate fuel current : Nat) (s : Store)
    (hfuel : 0 < fuel) (hle : current ≤ endDate) :
    (mainLoop env endDate fuel current s).2.head? = some current := by
  cases fuel with
  | zero => omega
  | succ m =>
    unfold mainLoop
    rw [if_neg (by omega)]
    rcases hiter : loopIter env s current with ⟨s1, next, evs⟩ | ⟨s1, evs⟩
    · rcases hloop : mainLoop env endDate m next s1 with ⟨s2, ds⟩
      simp [hiter, hloop]
    · simp [hiter]

/-- C3 counterexample: a run over the one-day window `[0, 0]` whose day
succeeds persists the cursor as day 0 and fetches exactly day 0; re-running
from the resulting store resumes *at* day 0 and fetches day 0 again — the
first date fetched on the re-run equals the day already advanced past,
instead of being strictly after it. -/
theorem spec_C3_counterexample :
    (runMain okDayLoopEnv 0 0 store0 5).1.lastProcessedDate = some 0 ∧
    (runMain okDayLoopEnv 0 0 store0 5).2 = [0] ∧
    (runMain okDayLoopEnv 0 0 (runMain okDayLoopEnv 0 0 store0 5).1 5).2 = [0] :=
  ⟨rfl, rfl, rfl⟩

/-- C3 amended: re-running the loop resumed from a persisted cursor `D`
starts the working date at `D` itself: no day strictly before `D` is ever
fetched again, and (when `D` is inside the window and there is fuel) the
first date fetched on the re-run is exactly `D` — the last completed day
is re-fetched once, rather than the run starting strictly after it. -/
theorem spec_C3 (env : LoopEnv) (startDate endDate : Nat) (s : Store) (fuel d : Nat)
    (hcur : s.lastProcessedDate = some d) :
    (∀ x ∈ (runMain env startDate endDate s fuel).2, d ≤ x) ∧
    (0 < fuel → d ≤ endDate →
      (runMain env startDate endDate s fuel).2.head? = some d) := by
  have hres : resumeDate s startDate = d := by simp [resumeDate, hcur]
  constructor
  · intro x hx
    unfold runMain at hx
    rw [hres] at hx
    exact mainLoop_dates_ge env endDate fuel d s x hx
  · intro hfuel hle
    unfold runMain
    rw [hres]
    exact mainLoop_head env endDate fuel d s hfuel hle

theorem spec_C3_witness :
    (∀ x ∈ (runMain okDayLoopEnv 0 3 { store0 with lastProcessedDate := some 2 } 9).2,
      2 ≤ x) ∧
    (0 < 9 ∧ 2 ≤ 3 ∧
      (runMain okDayLoopEnv 0 3 { store0 with lastProcessedDate := some 2 } 9).2.head? =
        some 2) :=
  ⟨(spec_C3 okDayLoopEnv 0 3 { store0 with lastProcessedDate := some 2 } 9 2 rfl).1,
    by decide,
    by decide,
    (spec_C3 okDayLoopEnv 0 3 { store0 with lastProcessedDate := some 2 } 9 2 rfl).2
      (by decide) (by decide)⟩

end FhirCollector
